import Mathlib

/-!
Shallow embedding of the chat-history persistence layer of the repository
(`src/utils/database.py`, `src/utils/history_manager.py`,
`src/utils/file_processing.py`) together with theorems settling the frozen
claims about it.

Modelling conventions:
* SQLite tables are lists of rows kept in rowid (insertion) order; the
  `AUTOINCREMENT` counters are explicit fields.
* Timestamps (`CURRENT_TIMESTAMP`) are natural numbers supplied by the caller
  as a `now` argument; one `save_message` call uses a single `now` for both
  the inserted row's default timestamp and the `updated_at` bump.
* The Python `sqlite3` driver leaves `PRAGMA foreign_keys` at SQLite's
  default OFF and `init_database` never turns it on, so the
  `ON DELETE CASCADE` clause declared on `messages.conversation_id` is NOT
  enforced by the engine: `DELETE FROM conversations` removes only
  conversation rows.  `delete_conversation` below models that actual engine
  behaviour.
* `ORDER BY timestamp ASC` is satisfied through the declared index
  `idx_messages_timestamp`, whose entries are ordered by (timestamp, rowid);
  scanning it yields rowid order among equal timestamps.  This is modelled as
  a stable insertion sort of the rowid-ordered row list.
* `LIKE` is modelled with SQLite's semantics: `%` matches any run of
  characters, `_` matches one character, plain characters compare
  ASCII-case-insensitively.  The `role IN ('user','assistant')` CHECK
  constraint is not modelled; every claim uses valid roles.
-/

/-- Row of the `messages` table (`init_database`, `src/utils/database.py`). -/
structure MessageRow where
  id : Nat
  conversation_id : Nat
  role : String
  content : String
  has_image : Bool
  image_data : Option String
  image_format : Option String
  timestamp : Nat
deriving DecidableEq

/-- Row of the `conversations` table (`init_database`, `src/utils/database.py`). -/
structure ConversationRow where
  id : Nat
  session_id : String
  title : Option String
  model_name : Option String
  created_at : Nat
  updated_at : Nat
deriving DecidableEq

/-- State of the SQLite store managed by class `ChatHistoryDatabase`:
the two tables in rowid order plus the AUTOINCREMENT counters. -/
structure ChatHistoryDatabase where
  conversations : List ConversationRow
  messages : List MessageRow
  next_conversation_id : Nat
  next_message_id : Nat
deriving DecidableEq

/-- State produced by `ChatHistoryDatabase.init_database` on a fresh path:
both tables empty, AUTOINCREMENT counters at 1. -/
def ChatHistoryDatabase.init_database : ChatHistoryDatabase :=
  ⟨[], [], 1, 1⟩

/-- Embeds `ChatHistoryDatabase.get_conversation_id`:
`SELECT id FROM conversations WHERE session_id = ?` (first matching row). -/
def ChatHistoryDatabase.get_conversation_id (s : ChatHistoryDatabase) (sid : String) :
    Option Nat :=
  (s.conversations.find? (fun c => c.session_id == sid)).map (fun c => c.id)

/-- Embeds `ChatHistoryDatabase.create_conversation`:
`INSERT INTO conversations (session_id, title, model_name) VALUES (?, ?, ?)`;
`created_at`/`updated_at` take their `CURRENT_TIMESTAMP` defaults.
Returns the updated store and `cursor.lastrowid`. -/
def ChatHistoryDatabase.create_conversation (s : ChatHistoryDatabase) (sid : String)
    (title model_name : Option String) (now : Nat) : ChatHistoryDatabase × Nat :=
  let cid := s.next_conversation_id
  ({ s with
      conversations := s.conversations ++ [⟨cid, sid, title, model_name, now, now⟩],
      next_conversation_id := cid + 1 }, cid)

/-- Title derivation in `save_message`:
`content[:50] + "..." if len(content) > 50 else content`. -/
def derive_title (content : String) : String :=
  if content.length > 50 then content.take 50 ++ "..." else content

/-- Effect of `UPDATE conversations SET updated_at = CURRENT_TIMESTAMP WHERE id = ?`. -/
def bump_updated_at (conversations : List ConversationRow) (cid : Nat) (now : Nat) :
    List ConversationRow :=
  conversations.map (fun c => if c.id = cid then { c with updated_at := now } else c)

/-- Embeds the single transaction of `save_message` that runs the message
`INSERT` and the parent `updated_at` `UPDATE` under one connection with one
`commit()`.  `image` carries the already-base64-encoded payload and its
format tag (the PIL/base64 encoding itself is external library code).
Returns the updated store and `cursor.lastrowid`. -/
def insert_message_txn (s : ChatHistoryDatabase) (cid : Nat) (role content : String)
    (image : Option (String × String)) (now : Nat) : ChatHistoryDatabase × Nat :=
  let mid := s.next_message_id
  let row : MessageRow :=
    ⟨mid, cid, role, content, image.isSome, image.map (fun i => i.1),
      image.map (fun i => i.2), now⟩
  ({ s with
      messages := s.messages ++ [row],
      conversations := bump_updated_at s.conversations cid now,
      next_message_id := mid + 1 }, mid)

/-- Embeds `ChatHistoryDatabase.save_message`: look up the conversation,
create it (deriving the title from the content) when absent, then insert the
message row and bump the parent's `updated_at`. -/
def ChatHistoryDatabase.save_message (s : ChatHistoryDatabase) (sid role content : String)
    (image : Option (String × String)) (model_name : Option String) (now : Nat) :
    ChatHistoryDatabase × Nat :=
  match s.get_conversation_id sid with
  | some cid => insert_message_txn s cid role content image now
  | none =>
      let created := s.create_conversation sid (some (derive_title content)) model_name now
      insert_message_txn created.1 created.2 role content image now

/-- Committed on-disk states reachable while `save_message` runs: the initial
state, the state after the `create_conversation` transaction (when one runs),
and the state after the insert-plus-bump transaction.  Each `sqlite3.connect`
context commits atomically at exit, so a crash can only expose these states. -/
def ChatHistoryDatabase.save_message_states (s : ChatHistoryDatabase)
    (sid role content : String) (image : Option (String × String))
    (model_name : Option String) (now : Nat) : List ChatHistoryDatabase :=
  match s.get_conversation_id sid with
  | some cid => [s, (insert_message_txn s cid role content image now).1]
  | none =>
      let created := s.create_conversation sid (some (derive_title content)) model_name now
      [s, created.1, (insert_message_txn created.1 created.2 role content image now).1]

/-- Comparison used to model `ORDER BY timestamp ASC` on messages. -/
def by_timestamp_asc (a b : MessageRow) : Prop := a.timestamp ≤ b.timestamp

instance : DecidableRel by_timestamp_asc := fun a b => Nat.decLe a.timestamp b.timestamp

/-- Python truthiness of the `limit` parameter in `load_messages`:
the `LIMIT` clause is appended only when `limit` is truthy, so both `None`
and `0` leave the query unlimited. -/
def apply_limit {α : Type} (limit : Option Nat) (l : List α) : List α :=
  match limit with
  | some n => if n = 0 then l else l.take n
  | none => l

/-- Message dictionary built by the row loop of `load_messages`; `image` is
present iff `has_image` is set and a payload is stored (the base64/PIL decode
is external and modelled as returning the stored payload). -/
structure LoadedMessage where
  role : String
  content : String
  timestamp : Nat
  image : Option String
deriving DecidableEq

/-- Conversion of one fetched row into the returned dictionary. -/
def row_to_loaded (m : MessageRow) : LoadedMessage :=
  { role := m.role, content := m.content, timestamp := m.timestamp,
    image := if m.has_image then m.image_data else none }

/-- Embeds `ChatHistoryDatabase.load_messages`:
`SELECT ... WHERE conversation_id = ? ORDER BY timestamp ASC [LIMIT ?]`,
absent session giving `[]`.  The timestamp index makes the engine return
equal-timestamp rows in rowid order, hence the stable insertion sort of the
rowid-ordered filtered list. -/
def ChatHistoryDatabase.load_messages (s : ChatHistoryDatabase) (sid : String)
    (limit : Option Nat) : List LoadedMessage :=
  match s.get_conversation_id sid with
  | none => []
  | some cid =>
      let rows := (s.messages.filter (fun m => m.conversation_id == cid)).insertionSort
        by_timestamp_asc
      (apply_limit limit rows).map row_to_loaded

/-- ASCII-only lower-casing used by SQLite's default `LIKE` comparison. -/
def ascii_lower (c : Char) : Char :=
  if 'A' ≤ c ∧ c ≤ 'Z' then Char.ofNat (c.toNat + 32) else c

/-- Fuel-indexed matcher for SQLite `LIKE`: `%` matches any run of
characters, `_` matches exactly one, other characters compare
ASCII-case-insensitively.  Every recursive call shrinks pattern or text, so
fuel `|pattern| + |text| + 1` is always sufficient. -/
def like_match_fuel : Nat → List Char → List Char → Bool
  | 0, _, _ => false
  | _ + 1, [], s => s.isEmpty
  | fuel + 1, p :: ps, s =>
      if p == '%' then
        like_match_fuel fuel ps s ||
          (match s with
            | [] => false
            | _ :: s2 => like_match_fuel fuel (p :: ps) s2)
      else
        match s with
        | [] => false
        | c :: s2 => (p == '_' || ascii_lower p == ascii_lower c) && like_match_fuel fuel ps s2

/-- SQLite `LIKE` on whole strings. -/
def sql_like (pattern text : String) : Bool :=
  like_match_fuel (pattern.length + text.length + 1) pattern.data text.data

/-- Result row of `search_messages`. -/
structure SearchRow where
  session_id : String
  title : Option String
  model_name : Option String
  role : String
  content : String
  timestamp : Nat
deriving DecidableEq

/-- Embeds the `JOIN conversations c ON m.conversation_id = c.id` of
`search_messages`: messages whose parent row is missing produce no joined row. -/
def join_conversations (s : ChatHistoryDatabase) :
    List (ConversationRow × MessageRow) :=
  s.messages.filterMap (fun m =>
    (s.conversations.find? (fun c => c.id == m.conversation_id)).map (fun c => (c, m)))

/-- Comparison used to model `ORDER BY m.timestamp DESC` on joined rows. -/
def pair_desc (a b : ConversationRow × MessageRow) : Prop :=
  b.2.timestamp ≤ a.2.timestamp

instance : DecidableRel pair_desc := fun a b => Nat.decLe b.2.timestamp a.2.timestamp

/-- Embeds `ChatHistoryDatabase.search_messages`: the query text is spliced
into the pattern as `f'%{query}%'` with NO escaping of `%`/`_` and no
`ESCAPE` clause, exactly as in the source, then `WHERE m.content LIKE ?`,
`ORDER BY m.timestamp DESC`, `LIMIT ?`. -/
def ChatHistoryDatabase.search_messages (s : ChatHistoryDatabase) (query : String)
    (limit : Nat) : List SearchRow :=
  let pattern := "%" ++ query ++ "%"
  let rows := (join_conversations s).filter (fun cm => sql_like pattern cm.2.content)
  ((rows.insertionSort pair_desc).take limit).map (fun cm =>
    ⟨cm.1.session_id, cm.1.title, cm.1.model_name, cm.2.role, cm.2.content,
      cm.2.timestamp⟩)

/-- Embeds `ChatHistoryDatabase.delete_conversation`:
`DELETE FROM conversations WHERE session_id = ?`, returning
`cursor.rowcount > 0`.  Because the connection never enables
`PRAGMA foreign_keys`, the engine does not act on the declared
`ON DELETE CASCADE` and the `messages` table is left untouched. -/
def ChatHistoryDatabase.delete_conversation (s : ChatHistoryDatabase) (sid : String) :
    ChatHistoryDatabase × Bool :=
  let deleted := s.conversations.any (fun c => c.session_id == sid)
  ({ s with conversations := s.conversations.filter (fun c => !(c.session_id == sid)) },
    deleted)

/-- Embeds `ChatHistoryDatabase.clear_all_history`:
`DELETE FROM messages; DELETE FROM conversations`, returning success (the
`except` branch catches only storage-level failures, absent from the pure
model). -/
def ChatHistoryDatabase.clear_all_history (s : ChatHistoryDatabase) :
    ChatHistoryDatabase × Bool :=
  ({ s with conversations := [], messages := [] }, true)

/-- Counts returned by `ChatHistoryDatabase.get_database_info` (the file-size
and path fields concern the file system and are not modelled). -/
structure DatabaseInfo where
  conversation_count : Nat
  message_count : Nat
  image_message_count : Nat
deriving DecidableEq

/-- Embeds the three `SELECT COUNT(*)` queries of `get_database_info`. -/
def ChatHistoryDatabase.get_database_info (s : ChatHistoryDatabase) : DatabaseInfo :=
  ⟨s.conversations.length, s.messages.length,
    (s.messages.filter (fun m => m.has_image)).length⟩

/-- Literal (exact, character-by-character) substring containment, the
matching the spec requires of `search_messages`. -/
def contains_literal : List Char → List Char → Bool
  | s, q =>
      match s with
      | [] => q.isEmpty
      | _ :: rest => q.isPrefixOf s || contains_literal rest q

/-!  Input sanitizer (`sanitize_user_input`, `src/utils/file_processing.py`). -/

/-- Case-insensitive match of `pat` against a prefix of the text, the
comparison `re.IGNORECASE` performs at one candidate position. -/
def matches_ic : List Char → List Char → Bool
  | [], _ => true
  | _ :: _, [] => false
  | p :: ps, c :: cs => (p.toLower == c.toLower) && matches_ic ps cs

/-- Fuel-indexed body of `re.sub(pat, '', s, flags=re.IGNORECASE)` for a
literal pattern: scan left to right, delete each non-overlapping match and
continue AFTER it (the scanner never revisits text reassembled by a
deletion).  Each step consumes at least one character of `s`, so fuel
`|s|` is always sufficient. -/
def re_sub_remove_fuel : Nat → List Char → List Char → List Char
  | 0, _, s => s
  | fuel + 1, pat, s =>
      match s with
      | [] => []
      | c :: rest =>
          if !pat.isEmpty && matches_ic pat (c :: rest) then
            re_sub_remove_fuel fuel pat ((c :: rest).drop pat.length)
          else c :: re_sub_remove_fuel fuel pat rest

/-- Removal of every case-insensitive occurrence of a literal pattern,
as performed by the three `re.sub` calls of `sanitize_user_input`. -/
def re_sub_remove (pat s : String) : String :=
  ⟨re_sub_remove_fuel s.data.length pat.data s.data⟩

/-- Expansion of one character under Python `html.escape` (quote=True). -/
def html_escape_char (c : Char) : List Char :=
  if c == '&' then "&amp;".data
  else if c == '<' then "&lt;".data
  else if c == '>' then "&gt;".data
  else if c == '"' then "&quot;".data
  else if c == Char.ofNat 39 then "&#x27;".data
  else [c]

/-- Python `html.escape(s, quote=True)`. -/
def html_escape (s : String) : String :=
  ⟨(s.data.map html_escape_char).flatten⟩

/-- Model of the third-party `bleach.clean` call with the allow-list
configuration used by `sanitize_user_input`.  On text containing none of the
markup characters `<`, `>`, `&`, bleach's HTML tokenizer emits the text
unchanged; that markup-free case is the only one the theorems below
evaluate.  Markup-bearing input is conservatively HTML-escaped here, which
is bleach's treatment of stray markup in text position. -/
def bleach_clean (s : String) : String :=
  if s.data.all (fun c => !(c == '<') && !(c == '>') && !(c == '&')) then s
  else html_escape s

/-- Embeds `sanitize_user_input`: empty input passes through; otherwise one
`re.sub` removal pass per forbidden scheme (in source order), then
`bleach.clean`, then `html.escape`. -/
def sanitize_user_input (content : String) : String :=
  if content == "" then content
  else
    html_escape (bleach_clean
      (re_sub_remove "vbscript:"
        (re_sub_remove "data:"
          (re_sub_remove "javascript:" content))))

/-!  History manager (`ChatHistoryManager`, `src/utils/history_manager.py`). -/

/-- Streamlit-shaped message returned by `load_session_messages`. -/
structure StreamlitMessage where
  role : String
  content : String
  image : Option String
deriving DecidableEq

/-- State of a `ChatHistoryManager`: its database plus the in-memory
current-session pointer `_current_session_id`. -/
structure ChatHistoryManager where
  db : ChatHistoryDatabase
  _current_session_id : Option String
deriving DecidableEq

/-- Embeds `ChatHistoryManager.get_current_session_id`. -/
def ChatHistoryManager.get_current_session_id (m : ChatHistoryManager) : Option String :=
  m._current_session_id

/-- Embeds `ChatHistoryManager.set_current_session`. -/
def ChatHistoryManager.set_current_session (m : ChatHistoryManager) (sid : String) :
    ChatHistoryManager :=
  { m with _current_session_id := some sid }

/-- Embeds `ChatHistoryManager.start_new_session`; the fresh UUID minted by
`uuid.uuid4()` is supplied by the caller.  Nothing is written to the store. -/
def ChatHistoryManager.start_new_session (m : ChatHistoryManager) (fresh_id : String) :
    ChatHistoryManager × String :=
  ({ m with _current_session_id := some fresh_id }, fresh_id)

/-- Embeds `ChatHistoryManager.load_session_messages`: default to the current
session, return `[]` when no session is set, otherwise convert the loaded
rows to Streamlit shape. -/
def ChatHistoryManager.load_session_messages (m : ChatHistoryManager)
    (session_id : Option String) (limit : Option Nat) : List StreamlitMessage :=
  let sid := match session_id with
    | none => m._current_session_id
    | some s => some s
  match sid with
  | none => []
  | some s => (m.db.load_messages s limit).map (fun r => ⟨r.role, r.content, r.image⟩)

/-- Embeds `ChatHistoryManager.delete_conversation`: delegate to the store,
then clear the current-session pointer iff the delete succeeded AND the
deleted session equals the pointer
(`if success and self._current_session_id == session_id`). -/
def ChatHistoryManager.delete_conversation (m : ChatHistoryManager) (sid : String) :
    ChatHistoryManager × Bool :=
  let res := m.db.delete_conversation sid
  if res.2 && (m._current_session_id == some sid) then
    ({ db := res.1, _current_session_id := none }, res.2)
  else
    ({ db := res.1, _current_session_id := m._current_session_id }, res.2)

/-- Embeds `ChatHistoryManager.clear_all_history`: delegate to the store and
clear the pointer iff the store reported success. -/
def ChatHistoryManager.clear_all_history (m : ChatHistoryManager) :
    ChatHistoryManager × Bool :=
  let res := m.db.clear_all_history
  if res.2 then ({ db := res.1, _current_session_id := none }, res.2)
  else ({ db := res.1, _current_session_id := m._current_session_id }, res.2)

/-!  Helpers for settling the ordering claim about `load_messages`. -/

/-- Folding a list of (role, content, time) triples through `save_message`
for one session, the way consecutive turns of a conversation are persisted. -/
def save_user_texts (s : ChatHistoryDatabase) (sid : String)
    (msgs : List (String × String × Nat)) : ChatHistoryDatabase :=
  msgs.foldl (fun st m => (st.save_message sid m.1 m.2.1 none none m.2.2).1) s

/-- Comparison of the save-time components of two (role, content, time)
triples; a real clock read at consecutive saves satisfies it, including the
equal-timestamp (sub-second collision) case. -/
def times_le (a b : String × String × Nat) : Prop := a.2.2 ≤ b.2.2

instance : DecidableRel times_le := fun a b => Nat.decLe a.2.2 b.2.2

instance : IsTrans (String × String × Nat) times_le :=
  ⟨fun _ _ _ h1 h2 => Nat.le_trans h1 h2⟩

/-- Message rows that `save_user_texts` appends for conversation `cid`
starting from message rowid `nid`. -/
def appended_rows (cid : Nat) : Nat → List (String × String × Nat) → List MessageRow
  | _, [] => []
  | nid, (r, c, t) :: rest =>
      ⟨nid, cid, r, c, false, none, none, t⟩ :: appended_rows cid (nid + 1) rest

/-!  File-type validator (`src/utils/file_processing.py`). -/

/-- Minimal uploaded-blob interface the validator uses: a name, the byte
content, and a mutable stream position (bytes as naturals). -/
structure UploadedFile where
  name : String
  data : List Nat
  pos : Nat
deriving DecidableEq

/-- Stream `seek(position)`. -/
def UploadedFile.seek (f : UploadedFile) (p : Nat) : UploadedFile := { f with pos := p }

/-- Stream `read(maxBytes)`: yield up to `n` bytes from the current position
and advance it. -/
def UploadedFile.read (f : UploadedFile) (n : Nat) : List Nat × UploadedFile :=
  ((f.data.drop f.pos).take n, { f with pos := min (f.pos + n) f.data.length })

/-- MIME allow-list of `validate_file_content`. -/
def allowed_mime_types : List String :=
  ["image/png", "image/jpeg", "image/gif", "image/bmp", "image/webp", "application/pdf"]

/-- Embeds `validate_file_content`, parameterized by the third-party
`magic.from_buffer` sniffer: seek to 0, read the first 2048 bytes, seek back
to 0, then test the detected MIME type against the allow-list.  `magic`
returning `none` models an exception inside detection, caught by the
`except` branch as `False`; the stream position was already restored before
that call. -/
def validate_file_content (magic : List Nat → Option String) (f : UploadedFile) :
    Bool × UploadedFile :=
  let f1 := f.seek 0
  let read1 := f1.read 2048
  let f3 := read1.2.seek 0
  match magic read1.1 with
  | none => (false, f3)
  | some mime => (allowed_mime_types.contains mime, f3)

/-- Extension allow-list of `get_file_type`. -/
def allowed_extensions : List String :=
  ["jpg", "jpeg", "png", "gif", "bmp", "webp", "pdf"]

/-- Final extension-based classification of `get_file_type`. -/
def classify_extension (ext : String) : String :=
  if ["jpg", "jpeg", "png", "gif", "bmp", "webp"].contains ext then "image"
  else if ext == "pdf" then "pdf"
  else "unknown"

/-- Splitting on `'.'` as Python `str.split('.')` does: consecutive dots
produce empty components, and a string without dots is one component. -/
def split_on_dot : List Char → List (List Char)
  | [] => [[]]
  | c :: rest =>
      let r := split_on_dot rest
      if c = '.' then [] :: r
      else
        match r with
        | [] => [[c]]
        | h :: t2 => (c :: h) :: t2

/-- Extension derivation `file_name.lower().split('.')[-1]`. -/
def file_extension (file_name : String) : String :=
  ⟨(split_on_dot (file_name.data.map Char.toLower)).getLastD []⟩

/-- Embeds `get_file_type`: empty name is `unknown`; an extension outside the
allow-list is `unknown` without touching the blob; with a blob supplied the
content gate must pass, else `unknown`; finally classify by extension. -/
def get_file_type (magic : List Nat → Option String) (file_name : String)
    (uploaded : Option UploadedFile) : String × Option UploadedFile :=
  if file_name == "" then ("unknown", uploaded)
  else
    let ext := file_extension file_name
    if !(allowed_extensions.contains ext) then ("unknown", uploaded)
    else
      match uploaded with
      | none => (classify_extension ext, none)
      | some f =>
          let v := validate_file_content magic f
          if !v.1 then ("unknown", some v.2)
          else (classify_extension ext, some v.2)
/-- Claim C1 (code bug): `search_messages` interpolates the raw query into
the `LIKE` pattern without escaping `%`/`_` and without an `ESCAPE` clause,
so `_` in the query acts as a one-character wildcard.  A store holding one
message with content `"axb"` is returned for the query `"a_b"` although
`"a_b"` is not a literal substring of `"axb"`, contradicting the claim that
a message is returned iff its content contains the query literally. -/
theorem search_underscore_wildcard_leak :
    (((ChatHistoryDatabase.init_database.save_message
          "s1" "user" "axb" none none 5).1.search_messages "a_b" 50).map
        (fun r => r.content)) = ["axb"]
    ∧ contains_literal "axb".data "a_b".data = false := by
  constructor
  · rfl
  · rfl

/-- Claim C2 (code bug): `init_database` declares `ON DELETE CASCADE` on
`messages.conversation_id`, but the `sqlite3` connections never enable
`PRAGMA foreign_keys` (OFF by default), so `delete_conversation` removes
only the conversation row.  After saving one message for session `"s"` and
deleting the conversation: the call returns `true`, the conversation lookup
is absent, `load_messages` appears empty, yet the message row is still in
the store (`message_count = 1`), orphaned under the deleted conversation
key 1. -/
theorem delete_conversation_orphans_messages :
    (((ChatHistoryDatabase.init_database.save_message
          "s" "user" "hello" none none 3).1.delete_conversation "s").2 = true)
    ∧ (((ChatHistoryDatabase.init_database.save_message
          "s" "user" "hello" none none 3).1.delete_conversation
            "s").1.get_conversation_id "s" = none)
    ∧ (((ChatHistoryDatabase.init_database.save_message
          "s" "user" "hello" none none 3).1.delete_conversation
            "s").1.load_messages "s" none = [])
    ∧ (((ChatHistoryDatabase.init_database.save_message
          "s" "user" "hello" none none 3).1.delete_conversation
            "s").1.get_database_info.message_count = 1)
    ∧ ((((ChatHistoryDatabase.init_database.save_message
          "s" "user" "hello" none none 3).1.delete_conversation
            "s").1.messages.filter (fun m => m.conversation_id == 1)).length = 1) := by
  refine ⟨rfl, rfl, rfl, rfl, rfl⟩

/-- Claim C3 (code bug): the scheme-stripping of `sanitize_user_input` is a
single left-to-right `re.sub` pass per scheme, so an occurrence reassembled
by a deletion survives: on input `"javajavascript:script:alert(1)"` the
removal of the inner `javascript:` glues `java` to `script:` and the output
is exactly `"javascript:alert(1)"`, which still contains the forbidden
scheme `javascript:`. -/
theorem sanitize_reassembled_scheme_survives :
    sanitize_user_input "javajavascript:script:alert(1)" = "javascript:alert(1)"
    ∧ contains_literal (sanitize_user_input "javajavascript:script:alert(1)").data
        "javascript:".data = true := by
  constructor
  · rfl
  · rfl

/-- Claim C8: because the `LIMIT` clause is added only when `limit` is
truthy in Python, `limit = 0` behaves exactly like passing no limit: every
message of the session is returned, both at the store level and through the
manager. -/
theorem load_messages_limit_zero_eq_no_limit :
    (∀ (s : ChatHistoryDatabase) (sid : String),
      s.load_messages sid (some 0) = s.load_messages sid none)
    ∧ (∀ (m : ChatHistoryManager) (sid : String),
      m.load_session_messages (some sid) (some 0)
        = m.load_session_messages (some sid) none) := by
  have hdb : ∀ (s : ChatHistoryDatabase) (sid : String),
      s.load_messages sid (some 0) = s.load_messages sid none := by
    intro s sid
    unfold ChatHistoryDatabase.load_messages
    cases s.get_conversation_id sid <;> simp [apply_limit]
  refine ⟨hdb, fun m sid => ?_⟩
  unfold ChatHistoryManager.load_session_messages
  simp [hdb]

/-- Claim C6: a successful delete of the current session clears the
in-memory pointer, deleting a different session leaves it unchanged, and a
successful clear-all clears it. -/
theorem current_session_pointer_cleared (m : ChatHistoryManager) (sid : String) :
    ((m.delete_conversation sid).2 = true → m.get_current_session_id = some sid →
      ((m.delete_conversation sid).1).get_current_session_id = none)
    ∧ (m.get_current_session_id ≠ some sid →
      ((m.delete_conversation sid).1).get_current_session_id = m.get_current_session_id)
    ∧ ((m.clear_all_history).2 = true →
      ((m.clear_all_history).1).get_current_session_id = none) := by
  refine ⟨?_, ?_, ?_⟩
  · intro h1 h2
    simp only [ChatHistoryManager.get_current_session_id] at h2 ⊢
    simp only [ChatHistoryManager.delete_conversation, apply_ite, ite_self] at h1
    have hc : ((m.db.delete_conversation sid).2
        && (m._current_session_id == some sid)) = true := by
      simp [h1, h2]
    simp [ChatHistoryManager.delete_conversation, hc]
  · intro h2
    simp only [ChatHistoryManager.get_current_session_id] at h2 ⊢
    have hc : (m._current_session_id == some sid) = false := by
      simpa using h2
    simp [ChatHistoryManager.delete_conversation, hc]
  · intro _
    simp [ChatHistoryManager.clear_all_history, ChatHistoryDatabase.clear_all_history,
      ChatHistoryManager.get_current_session_id]

/-- Witness for C6 at a concrete manager: one saved message for session
`"w"`, pointer at `"w"`; deleting `"w"` clears the pointer. -/
theorem current_session_pointer_cleared_witness :
    (((⟨(ChatHistoryDatabase.init_database.save_message "w" "user" "hi" none none 1).1,
        some "w"⟩ : ChatHistoryManager).delete_conversation "w").1).get_current_session_id
      = none :=
  (current_session_pointer_cleared
    ⟨(ChatHistoryDatabase.init_database.save_message "w" "user" "hi" none none 1).1,
      some "w"⟩ "w").1 (by rfl) (by rfl)

/-- Claim C10: if the current session id has no conversation row (store
creation is lazy), deleting it returns `false` and the pointer stays set. -/
theorem delete_missing_current_session_keeps_pointer
    (m : ChatHistoryManager) (sid : String)
    (hcur : m.get_current_session_id = some sid)
    (habs : m.db.get_conversation_id sid = none) :
    (m.delete_conversation sid).2 = false
    ∧ ((m.delete_conversation sid).1).get_current_session_id = some sid := by
  have hfind : m.db.conversations.find? (fun c => c.session_id == sid) = none := by
    unfold ChatHistoryDatabase.get_conversation_id at habs
    exact Option.map_eq_none'.mp habs
  have hany : (m.db.conversations.any (fun c => c.session_id == sid)) = false := by
    rw [List.any_eq_false]
    intro c hc
    have := List.find?_eq_none.mp hfind c hc
    simpa using this
  have hdel2 : (m.db.delete_conversation sid).2 = false := by
    simp [ChatHistoryDatabase.delete_conversation, hany]
  simp only [ChatHistoryManager.get_current_session_id] at hcur ⊢
  refine ⟨?_, ?_⟩
  · simp [ChatHistoryManager.delete_conversation, apply_ite, hdel2]
  · simp [ChatHistoryManager.delete_conversation, hdel2, hcur]

/-- Witness for C10: empty store, pointer minted at `"s"` with no row. -/
theorem delete_missing_current_session_keeps_pointer_witness :
    ((⟨ChatHistoryDatabase.init_database, some "s"⟩ :
        ChatHistoryManager).delete_conversation "s").2 = false
    ∧ (((⟨ChatHistoryDatabase.init_database, some "s"⟩ :
        ChatHistoryManager).delete_conversation "s").1).get_current_session_id
      = some "s" :=
  delete_missing_current_session_keeps_pointer
    ⟨ChatHistoryDatabase.init_database, some "s"⟩ "s" rfl rfl

/-- Helper: a single trailing `%` pattern matches any remaining text, given
enough fuel. -/
theorem like_match_fuel_single_percent :
    ∀ (t : List Char) (fuel : Nat), t.length + 2 ≤ fuel →
      like_match_fuel fuel ['%'] t = true := by
  intro t
  induction t with
  | nil =>
      intro fuel h
      cases fuel with
      | zero => omega
      | succ f =>
          cases f with
          | zero => omega
          | succ f2 => simp [like_match_fuel]
  | cons c t2 ih =>
      intro fuel h
      cases fuel with
      | zero => omega
      | succ f =>
          have h2 : t2.length + 2 ≤ f := by
            simp only [List.length_cons] at h
            omega
          simp [like_match_fuel, ih f h2]

/-- Helper: the pattern built from the empty query, `'%' + '' + '%'`,
matches every content string. -/
theorem sql_like_empty_query (t : String) : sql_like ("%" ++ "" ++ "%") t = true := by
  have hpat : ("%" ++ "" ++ "%" : String) = "%%" := rfl
  rw [hpat]
  show like_match_fuel (("%%" : String).length + t.length + 1) ['%', '%'] t.data = true
  have hlen : ("%%" : String).length + t.length + 1 = (t.length + 2) + 1 := by
    have : ("%%" : String).length = 2 := rfl
    omega
  rw [hlen]
  have hfuel : t.data.length + 2 ≤ t.length + 2 := by
    have : t.length = t.data.length := rfl
    omega
  have hstep : like_match_fuel ((t.length + 2) + 1) ['%', '%'] t.data
      = (like_match_fuel (t.length + 2) ['%'] t.data ||
          (match t.data with
            | [] => false
            | _ :: s2 => like_match_fuel (t.length + 2) ['%', '%'] s2)) := rfl
  rw [hstep, like_match_fuel_single_percent t.data (t.length + 2) hfuel]
  simp

/-- Helper: `filterMap` over a function that succeeds on every element
preserves the length. -/
theorem length_filterMap_of_forall_isSome {α β : Type} (g : α → Option β) :
    ∀ (l : List α), (∀ m ∈ l, (g m).isSome = true) → (l.filterMap g).length = l.length := by
  intro l
  induction l with
  | nil => simp
  | cons a t ih =>
      intro h
      obtain ⟨b, hb⟩ := Option.isSome_iff_exists.mp (h a (by simp))
      simp [List.filterMap_cons, hb, ih (fun m hm => h m (by simp [hm]))]

/-- Claim C9: the empty query builds the pattern `'%%'`, which matches every
stored message (the empty string is a substring of everything), so
`search_messages("")` returns the newest `limit` joined messages, never an
empty result while messages exist.  The hypothesis states the
well-formedness the `JOIN` needs: every message has a parent conversation
row. -/
theorem search_empty_query_matches_all (s : ChatHistoryDatabase) (limit : Nat)
    (hjoin : ∀ m ∈ s.messages,
      (s.conversations.any (fun c => c.id == m.conversation_id)) = true) :
    (∀ content : String, sql_like ("%" ++ "" ++ "%") content = true)
    ∧ (s.search_messages "" limit).length = min limit s.messages.length := by
  refine ⟨sql_like_empty_query, ?_⟩
  unfold ChatHistoryDatabase.search_messages
  simp only [List.length_map, List.length_take]
  congr 1
  rw [(List.perm_insertionSort pair_desc _).length_eq]
  rw [List.filter_eq_self.mpr (fun cm _ => sql_like_empty_query cm.2.content)]
  unfold join_conversations
  apply length_filterMap_of_forall_isSome
  intro m hm
  rw [Option.isSome_map', List.find?_isSome]
  have h2 := hjoin m hm
  rw [List.any_eq_true] at h2
  obtain ⟨c, hc1, hc2⟩ := h2
  exact ⟨c, hc1, hc2⟩

/-- Witness for C9 at a concrete store holding one message. -/
theorem search_empty_query_matches_all_witness :
    ((ChatHistoryDatabase.init_database.save_message
        "s" "user" "hello" none none 3).1.search_messages "" 50).length
      = min 50 ((ChatHistoryDatabase.init_database.save_message
        "s" "user" "hello" none none 3).1.messages.length) :=
  (search_empty_query_matches_all
    (ChatHistoryDatabase.init_database.save_message "s" "user" "hello" none none 3).1
    50 (by decide)).2

/-- Helper: `validate_file_content` always hands the stream back with its
position restored to the start and its bytes untouched. -/
theorem validate_file_content_snd (magic : List Nat → Option String) (f : UploadedFile) :
    (validate_file_content magic f).2 = ⟨f.name, f.data, 0⟩ := by
  cases hmg : magic (f.data.take 2048) <;>
    simp [validate_file_content, UploadedFile.seek, UploadedFile.read, hmg]

/-- Helper: the boolean verdict of `validate_file_content` depends only on
the blob's bytes (it reads the first 2048 bytes from position 0), not on the
incoming stream position. -/
theorem validate_file_content_fst_eq (magic : List Nat → Option String)
    (f g : UploadedFile) (h : f.data = g.data) :
    (validate_file_content magic f).1 = (validate_file_content magic g).1 := by
  cases hmg : magic (g.data.take 2048) <;>
    simp [validate_file_content, UploadedFile.seek, UploadedFile.read, h, hmg]

/-- Claim C7: classification is idempotent.  `get_file_type` either leaves
the blob untouched (empty name or rejected extension) or runs the content
gate, which reads only the first 2048 bytes and hands the stream back at
position 0 with the bytes unchanged; hence a second call sees the same
bytes and returns the same result. -/
theorem classify_idempotent (magic : List Nat → Option String) (file_name : String)
    (f : UploadedFile) :
    ((get_file_type magic file_name
        ((get_file_type magic file_name (some f)).2)).1
      = (get_file_type magic file_name (some f)).1)
    ∧ (∀ g, (get_file_type magic file_name (some f)).2 = some g → g.data = f.data)
    ∧ (file_name ≠ "" →
        allowed_extensions.contains (file_extension file_name) = true →
        (get_file_type magic file_name (some f)).2 = some ⟨f.name, f.data, 0⟩) := by
  by_cases hname : file_name = ""
  · refine ⟨?_, ?_, ?_⟩
    · simp [get_file_type, hname]
    · intro g hg
      simp [get_file_type, hname] at hg
      rw [← hg]
    · intro hne _
      exact absurd hname hne
  · by_cases hext : file_extension file_name ∈ allowed_extensions
    · have hsnd : (validate_file_content magic f).2 = ⟨f.name, f.data, 0⟩ :=
        validate_file_content_snd magic f
      have hsnd0 : (validate_file_content magic (⟨f.name, f.data, 0⟩ : UploadedFile)).2
          = ⟨f.name, f.data, 0⟩ :=
        validate_file_content_snd magic ⟨f.name, f.data, 0⟩
      have hfst : (validate_file_content magic (⟨f.name, f.data, 0⟩ : UploadedFile)).1
          = (validate_file_content magic f).1 :=
        validate_file_content_fst_eq magic ⟨f.name, f.data, 0⟩ f rfl
      refine ⟨?_, ?_, ?_⟩
      · cases hok : (validate_file_content magic f).1 <;>
          simp [get_file_type, hname, hext, hok, hsnd, hsnd0, hfst]
      · intro g hg
        cases hok : (validate_file_content magic f).1 <;>
          · simp [get_file_type, hname, hext, hok, hsnd] at hg
            rw [← hg]
      · intro _ _
        cases hok : (validate_file_content magic f).1 <;>
          simp [get_file_type, hname, hext, hok, hsnd]
    · refine ⟨?_, ?_, ?_⟩
      · simp [get_file_type, hname, hext]
      · intro g hg
        simp [get_file_type, hname, hext] at hg
        rw [← hg]
      · intro _ hcontains
        have : file_extension file_name ∈ allowed_extensions := by
          simpa using hcontains
        exact absurd this hext

/-- Witness for C7: a PNG-sniffing `magic`, a valid name, a blob left at
position 2; the gate restores position 0 and classification repeats. -/
theorem classify_idempotent_witness :
    ((get_file_type (fun _ => some "image/png") "photo.png"
        ((get_file_type (fun _ => some "image/png") "photo.png"
          (some ⟨"photo.png", [1, 2, 3], 2⟩)).2)).1
      = (get_file_type (fun _ => some "image/png") "photo.png"
          (some ⟨"photo.png", [1, 2, 3], 2⟩)).1)
    ∧ ((⟨"photo.png", [1, 2, 3], 0⟩ : UploadedFile).data = [1, 2, 3])
    ∧ ((get_file_type (fun _ => some "image/png") "photo.png"
        (some ⟨"photo.png", [1, 2, 3], 2⟩)).2 = some ⟨"photo.png", [1, 2, 3], 0⟩) := by
  have h3 := (classify_idempotent (fun _ => some "image/png") "photo.png"
    ⟨"photo.png", [1, 2, 3], 2⟩).2.2 (by decide) (by decide)
  refine ⟨(classify_idempotent (fun _ => some "image/png") "photo.png"
    ⟨"photo.png", [1, 2, 3], 2⟩).1, ?_, h3⟩
  exact (classify_idempotent (fun _ => some "image/png") "photo.png"
    ⟨"photo.png", [1, 2, 3], 2⟩).2.1 ⟨"photo.png", [1, 2, 3], 0⟩ h3

/-- Claim C5: every state a crash can expose while `save_message` runs
satisfies: any message row not already present beforehand (in particular the
newly inserted one) has its parent conversation row present with
`updated_at` equal to the save time.  The conversation-create transaction
commits before the message insert, and the insert and the `updated_at` bump
share one transaction, so no crash point shows an orphaned message or a
stale parent timestamp. -/
theorem save_message_atomic_updated_at (s : ChatHistoryDatabase)
    (sid role content : String) (image : Option (String × String))
    (model_name : Option String) (now : Nat) (st : ChatHistoryDatabase)
    (hst : st ∈ s.save_message_states sid role content image model_name now)
    (m : MessageRow) (hm : m ∈ st.messages) :
    m ∈ s.messages
    ∨ ∃ c, c ∈ st.conversations ∧ c.id = m.conversation_id ∧ c.updated_at = now := by
  unfold ChatHistoryDatabase.save_message_states at hst
  cases hfind : s.get_conversation_id sid with
  | some cid =>
      rw [hfind] at hst
      simp only [List.mem_cons, List.not_mem_nil, or_false] at hst
      rcases hst with rfl | rfl
      · exact Or.inl hm
      · simp only [insert_message_txn, List.mem_append, List.mem_cons,
          List.not_mem_nil, or_false] at hm
        rcases hm with hm | rfl
        · exact Or.inl hm
        · right
          obtain ⟨c0, hc0, hcid⟩ : ∃ c0,
              s.conversations.find? (fun c => c.session_id == sid) = some c0
              ∧ c0.id = cid := by
            unfold ChatHistoryDatabase.get_conversation_id at hfind
            cases hf : s.conversations.find? (fun c => c.session_id == sid) with
            | none => rw [hf] at hfind; simp at hfind
            | some c0 =>
                rw [hf] at hfind
                simp only [Option.map_some', Option.some.injEq] at hfind
                exact ⟨c0, rfl, hfind⟩
          refine ⟨{ c0 with updated_at := now }, ?_, ?_, rfl⟩
          · simp only [insert_message_txn, bump_updated_at]
            exact List.mem_map.mpr
              ⟨c0, List.mem_of_find?_eq_some hc0, by simp [hcid]⟩
          · simp [hcid]
  | none =>
      rw [hfind] at hst
      simp only [List.mem_cons, List.not_mem_nil, or_false] at hst
      rcases hst with rfl | rfl | rfl
      · exact Or.inl hm
      · simp only [ChatHistoryDatabase.create_conversation] at hm
        exact Or.inl hm
      · simp only [ChatHistoryDatabase.create_conversation, insert_message_txn,
          List.mem_append, List.mem_cons, List.not_mem_nil, or_false] at hm
        rcases hm with hm | rfl
        · exact Or.inl hm
        · right
          refine ⟨⟨s.next_conversation_id, sid, some (derive_title content),
              model_name, now, now⟩, ?_, rfl, rfl⟩
          simp only [ChatHistoryDatabase.create_conversation, insert_message_txn,
            bump_updated_at]
          refine List.mem_map.mpr
            ⟨⟨s.next_conversation_id, sid, some (derive_title content),
              model_name, now, now⟩, by simp, by simp⟩

/-- Witness for C5: saving `"hi"` into a fresh store at time 7; the final
crash state contains the new message and its parent with `updated_at = 7`. -/
theorem save_message_atomic_updated_at_witness :
    (⟨1, 1, "user", "hi", false, none, none, 7⟩ : MessageRow)
        ∈ ChatHistoryDatabase.init_database.messages
    ∨ ∃ c, c ∈ ((ChatHistoryDatabase.init_database.save_message
          "s" "user" "hi" none none 7).1).conversations
        ∧ c.id = (⟨1, 1, "user", "hi", false, none, none, 7⟩ : MessageRow).conversation_id
        ∧ c.updated_at = 7 :=
  save_message_atomic_updated_at ChatHistoryDatabase.init_database
    "s" "user" "hi" none none 7
    (ChatHistoryDatabase.init_database.save_message "s" "user" "hi" none none 7).1
    (by decide)
    ⟨1, 1, "user", "hi", false, none, none, 7⟩
    (by decide)

/-- Helper: bumping `updated_at` changes neither the session ids nor the row
ids of the conversations, so conversation lookup is unaffected. -/
theorem find?_session_bump (l : List ConversationRow) (sid : String) (cid now : Nat) :
    ((bump_updated_at l cid now).find? (fun c => c.session_id == sid)).map
        (fun c => c.id)
      = (l.find? (fun c => c.session_id == sid)).map (fun c => c.id) := by
  unfold bump_updated_at
  rw [List.find?_map]
  have hp : ((fun c : ConversationRow => c.session_id == sid) ∘
      (fun c => if c.id = cid then { c with updated_at := now } else c))
      = (fun c : ConversationRow => c.session_id == sid) := by
    funext c
    by_cases h : c.id = cid <;> simp [h]
  rw [hp, Option.map_map]
  congr 1
  funext c
  by_cases h : c.id = cid <;> simp [h]

/-- Helper: the effect of `save_message` when the conversation already
exists: append one message row with the next rowid and bump the parent. -/
theorem save_message_existing (s : ChatHistoryDatabase) (sid role content : String)
    (now cid : Nat) (h : s.get_conversation_id sid = some cid) :
    (s.save_message sid role content none none now).1
      = { s with
          messages := s.messages
            ++ [⟨s.next_message_id, cid, role, content, false, none, none, now⟩],
          conversations := bump_updated_at s.conversations cid now,
          next_message_id := s.next_message_id + 1 } := by
  unfold ChatHistoryDatabase.save_message
  rw [h]
  simp [insert_message_txn]

/-- Helper: `save_message` preserves the conversation lookup. -/
theorem get_conversation_id_after_save (s : ChatHistoryDatabase)
    (sid role content : String) (now cid : Nat)
    (h : s.get_conversation_id sid = some cid) :
    (s.save_message sid role content none none now).1.get_conversation_id sid
      = some cid := by
  rw [save_message_existing s sid role content now cid h]
  unfold ChatHistoryDatabase.get_conversation_id at h ⊢
  simpa [find?_session_bump] using h

/-- Helper: folding saves for an existing conversation appends exactly the
`appended_rows` block and keeps the lookup stable. -/
theorem save_fold_spec (sid : String) :
    ∀ (msgs : List (String × String × Nat)) (s : ChatHistoryDatabase) (cid : Nat),
      s.get_conversation_id sid = some cid →
      (save_user_texts s sid msgs).messages
          = s.messages ++ appended_rows cid s.next_message_id msgs
        ∧ (save_user_texts s sid msgs).get_conversation_id sid = some cid := by
  intro msgs
  induction msgs with
  | nil =>
      intro s cid h
      exact ⟨by simp [save_user_texts, appended_rows], by simpa [save_user_texts] using h⟩
  | cons hd tl ih =>
      intro s cid h
      obtain ⟨r, c, t⟩ := hd
      have hstep : save_user_texts s sid ((r, c, t) :: tl)
          = save_user_texts (s.save_message sid r c none none t).1 sid tl := rfl
      have h1 := get_conversation_id_after_save s sid r c t cid h
      obtain ⟨hmsgs, hget⟩ := ih (s.save_message sid r c none none t).1 cid h1
      rw [hstep]
      refine ⟨?_, hget⟩
      rw [hmsgs, save_message_existing s sid r c t cid h]
      simp [appended_rows]

/-- Helper: every row of an `appended_rows` block belongs to the target
conversation and carries one of the given timestamps. -/
theorem mem_appended_rows (cid : Nat) :
    ∀ (msgs : List (String × String × Nat)) (nid : Nat) (m : MessageRow),
      m ∈ appended_rows cid nid msgs →
      m.conversation_id = cid ∧ ∃ p ∈ msgs, m.timestamp = p.2.2 := by
  intro msgs
  induction msgs with
  | nil => intro nid m hm; simp [appended_rows] at hm
  | cons hd tl ih =>
      intro nid m hm
      obtain ⟨r, c, t⟩ := hd
      simp only [appended_rows, List.mem_cons] at hm
      rcases hm with rfl | hm
      · exact ⟨rfl, ⟨(r, c, t), by simp, rfl⟩⟩
      · obtain ⟨h1, p, hp, h2⟩ := ih (nid + 1) m hm
        exact ⟨h1, p, by simp [hp], h2⟩

/-- Helper: pairwise-nondecreasing save times give a pairwise-sorted block
of message rows. -/
theorem appended_rows_pairwise (cid : Nat) :
    ∀ (msgs : List (String × String × Nat)) (nid : Nat),
      List.Pairwise times_le msgs →
      List.Pairwise by_timestamp_asc (appended_rows cid nid msgs) := by
  intro msgs
  induction msgs with
  | nil => intro nid _; simp [appended_rows]
  | cons hd tl ih =>
      intro nid hp
      obtain ⟨r, c, t⟩ := hd
      rw [List.pairwise_cons] at hp
      obtain ⟨hhead, htl⟩ := hp
      show List.Pairwise by_timestamp_asc
        (⟨nid, cid, r, c, false, none, none, t⟩ :: appended_rows cid (nid + 1) tl)
      rw [List.pairwise_cons]
      refine ⟨?_, ih (nid + 1) htl⟩
      intro m hm
      obtain ⟨_, p, hpmem, hts⟩ := mem_appended_rows cid tl (nid + 1) m hm
      show t ≤ m.timestamp
      rw [hts]
      exact hhead p hpmem

/-- Helper: the conversation filter keeps the whole block. -/
theorem appended_rows_filter (cid : Nat) (msgs : List (String × String × Nat))
    (nid : Nat) :
    (appended_rows cid nid msgs).filter (fun m => m.conversation_id == cid)
      = appended_rows cid nid msgs := by
  rw [List.filter_eq_self]
  intro m hm
  have h := (mem_appended_rows cid msgs nid m hm).1
  simp [h]

/-- Helper: the loaded roles and contents of a block are the saved ones. -/
theorem appended_rows_project (cid : Nat) :
    ∀ (msgs : List (String × String × Nat)) (nid : Nat),
      ((appended_rows cid nid msgs).map row_to_loaded).map
          (fun lm => (lm.role, lm.content))
        = msgs.map (fun p => (p.1, p.2.1)) := by
  intro msgs
  induction msgs with
  | nil => intro nid; simp [appended_rows]
  | cons hd tl ih =>
      intro nid
      obtain ⟨r, c, t⟩ := hd
      simp [appended_rows, row_to_loaded, ih (nid + 1)]

/-- Helper: `load_messages` for a resolvable session, with the match
reduced. -/
theorem load_messages_some (s : ChatHistoryDatabase) (sid : String)
    (limit : Option Nat) (cid : Nat) (h : s.get_conversation_id sid = some cid) :
    s.load_messages sid limit
      = (apply_limit limit ((s.messages.filter
          (fun m => m.conversation_id == cid)).insertionSort by_timestamp_asc)).map
          row_to_loaded := by
  unfold ChatHistoryDatabase.load_messages
  rw [h]

/-- Claim C4: saving messages `m1, ..., mn` in order for one session into a
fresh store and loading them back returns them in exactly the insertion
order, provided only that the save-time stamps are non-decreasing — which
includes the sub-second collision case of equal timestamps, because the
engine returns equal-timestamp rows in rowid order and the stable sort of
the model keeps the insertion order on ties. -/
theorem load_messages_preserves_insertion_order (sid : String)
    (msgs : List (String × String × Nat))
    (hchain : List.Chain' times_le msgs) :
    ((save_user_texts ChatHistoryDatabase.init_database sid msgs).load_messages
        sid none).map (fun lm => (lm.role, lm.content))
      = msgs.map (fun p => (p.1, p.2.1)) := by
  have hpair : List.Pairwise times_le msgs := List.chain'_iff_pairwise.mp hchain
  cases msgs with
  | nil =>
      simp [save_user_texts, ChatHistoryDatabase.load_messages,
        ChatHistoryDatabase.get_conversation_id, ChatHistoryDatabase.init_database]
  | cons hd tl =>
      obtain ⟨r, c, t⟩ := hd
      have hs1 : (ChatHistoryDatabase.init_database.save_message sid r c none none t).1
          = ⟨[⟨1, sid, some (derive_title c), none, t, t⟩],
             [⟨1, 1, r, c, false, none, none, t⟩], 2, 2⟩ := rfl
      have hget1 : (ChatHistoryDatabase.init_database.save_message
          sid r c none none t).1.get_conversation_id sid = some 1 := by
        rw [hs1]
        simp [ChatHistoryDatabase.get_conversation_id, List.find?_cons]
      obtain ⟨hmsgs, hget⟩ := save_fold_spec sid tl
        (ChatHistoryDatabase.init_database.save_message sid r c none none t).1 1 hget1
      have hstep : save_user_texts ChatHistoryDatabase.init_database sid ((r, c, t) :: tl)
          = save_user_texts
              (ChatHistoryDatabase.init_database.save_message sid r c none none t).1
              sid tl := rfl
      rw [hstep]
      rw [load_messages_some _ sid none 1 hget]
      have hconcat :
          ((⟨[⟨1, sid, some (derive_title c), none, t, t⟩],
              [⟨1, 1, r, c, false, none, none, t⟩], 2, 2⟩ :
              ChatHistoryDatabase).messages
            ++ appended_rows 1
              (⟨[⟨1, sid, some (derive_title c), none, t, t⟩],
                [⟨1, 1, r, c, false, none, none, t⟩], 2, 2⟩ :
                ChatHistoryDatabase).next_message_id tl)
          = appended_rows 1 1 ((r, c, t) :: tl) := rfl
      rw [hmsgs, hs1, hconcat]
      rw [appended_rows_filter]
      rw [List.Sorted.insertionSort_eq
        (appended_rows_pairwise 1 ((r, c, t) :: tl) 1 hpair)]
      simp only [apply_limit]
      exact appended_rows_project 1 ((r, c, t) :: tl) 1

/-- Witness for C4 with three messages saved at the SAME timestamp 5
(a collided clock): loading still returns the insertion order. -/
theorem load_messages_preserves_insertion_order_witness :
    ((save_user_texts ChatHistoryDatabase.init_database "w"
        [("user", "a", 5), ("assistant", "b", 5), ("user", "c", 5)]).load_messages
        "w" none).map (fun lm => (lm.role, lm.content))
      = [("user", "a"), ("assistant", "b"), ("user", "c")] :=
  load_messages_preserves_insertion_order "w"
    [("user", "a", 5), ("assistant", "b", 5), ("user", "c", 5)]
    (by simp [List.chain'_cons, times_le])
